import Mathlib

/-!
Shallow embedding of `src/lrrfeed.py` (pearbot's LRR RSS feed parser).

The Python module defines a class `LRRFeedParser` whose shared class-level
dict `updater` maps feed ids to per-feed state
`{"task": Task, "lock": Lock, "last": float, "latest": Optional[Entry]}`.
We embed the purely functional core:

* `DateTime.isoformat` models `datetime.datetime.isoformat()` for a naive
  datetime built from six integer fields (year..second), as produced by
  `get_latest` (line 166 of the source).
* `update` models `LRRFeedParser.update` (lines 88-124): the fetch result of
  `get_latest` is passed in as an `Option Entry` parameter, and the side
  effects (log warnings, the fetch call, notifications) are returned as an
  explicit effect list.  The per-feed lock serializes cycles, so one call of
  `update` is modelled as one atomic state transition.
* `announce` models `LRRFeedParser.announce` (lines 126-143).
* `auto_update_step` models one iteration of the loop body of
  `LRRFeedParser.auto_update` (lines 74-83): either sleep or run an update.
* `start` models `LRRFeedParser.start` (lines 44-55); spawning a task is an
  effect.
* `stop` models `LRRFeedParser.stop` (lines 57-68) acting on the projection
  of the updater map to the `"task"` field.  `asyncio.Task.cancel()` only
  requests cancellation; a task observes it when the event loop next resumes
  it, which cannot happen during the synchronous `stop()` call, so `stop`
  leaves every task's phase unchanged.

Times (`loop.time()` monotonic-clock floats, the `delay` poll interval) are
modelled as rationals.
-/

namespace LRRFeed

/-- Naive datetime with the six fields from `published_parsed[:6]`. -/
structure DateTime where
  year : Nat
  month : Nat
  day : Nat
  hour : Nat
  minute : Nat
  second : Nat
deriving DecidableEq, Repr

/-- Zero-pad the decimal rendering of `n` to width `w`. -/
def pad (w : Nat) (n : Nat) : String :=
  let s := toString n
  if s.length < w then String.mk (List.replicate (w - s.length) ('0')) ++ s else s

/-- `datetime.isoformat()` for a naive datetime without microseconds:
`YYYY-MM-DDTHH:MM:SS`. -/
def DateTime.isoformat (d : DateTime) : String :=
  pad 4 d.year ++ "-" ++ pad 2 d.month ++ "-" ++ pad 2 d.day ++ "T" ++
    pad 2 d.hour ++ ":" ++ pad 2 d.minute ++ ":" ++ pad 2 d.second

/-- The normalized entry record returned by `get_latest` (lines 168-170):
`{"url": guid, "title": title, "time": datetime}`. -/
structure Entry where
  url : String
  title : String
  time : DateTime
deriving DecidableEq, Repr

/-- One catalog value of `RSS_FEEDS`: `{"title": ..., "url": ...}`. -/
structure FeedInfo where
  title : String
  url : String
deriving DecidableEq, Repr

/-- The module-level `RSS_FEEDS` dict (lines 19-24). -/
def RSS_FEEDS : List (String × FeedInfo) :=
  [(("video"), ⟨"LRR Video Feed", "http://feeds.feedburner.com/Loadingreadyrun"⟩),
   (("podcast"), ⟨"LRRcast Feed", "http://loadingreadyrun.com/lrrcasts/feed/all"⟩)]

/-- The mutable per-feed fields of an `updater` record touched by `update`:
`"last"` (monotonic time of last completed refresh) and `"latest"`
(last-seen entry).  The `"task"` and `"lock"` fields are modelled
separately (`TaskState`); the lock makes one `update` call atomic. -/
structure FeedRecord where
  last : ℚ
  latest : Option Entry
deriving DecidableEq, Repr

/-- Python dict lookup (`d[k]` / `k in d`), on an association list. -/
def dictGet {α : Type} : List (String × α) → String → Option α
  | [], _ => none
  | (k, v) :: t, key => if k = key then some v else dictGet t key

/-- Python dict assignment `d[k] = v` for a key already present. -/
def dictSet {α : Type} : List (String × α) → String → α → List (String × α)
  | [], _, _ => []
  | (k, x) :: t, key, v =>
    if k = key then (key, v) :: dictSet t key v else (k, x) :: dictSet t key v

/-- Python dict insertion `d[k] = v` for a key not present. -/
def dictInsert {α : Type} (d : List (String × α)) (key : String) (v : α) :
    List (String × α) :=
  d ++ [(key, v)]

/-- Python `del d[k]`. -/
def dictDel {α : Type} : List (String × α) → String → List (String × α)
  | [], _ => []
  | (k, v) :: t, key => if k = key then dictDel t key else (k, v) :: dictDel t key

/-- The updater map restricted to the fields `update`/`announce` read. -/
def Updater : Type := List (String × FeedRecord)

/-- Observable side effects of `update` and `announce`, in program order. -/
inductive Effect
  /-- `logger.warning("Cannot update/announce unknown RSS feed ...")`. -/
  | warnUnknown (feed : String)
  /-- The `await self.get_latest(feed_url)` network fetch (line 103). -/
  | fetch (url : String)
  /-- `logger.error("Update ... did not complete successfully.")` (line 109). -/
  | logError (feed : String)
  /-- `logger.info("Detected first entry ...")` (line 118). -/
  | logFirst (feed : String)
  /-- `logger.info("Detected new entry ...")` (line 121). -/
  | logNew (feed : String)
  /-- `await self.client.announce(entry_msg)` (line 143). -/
  | broadcast (msg : String)
  /-- `await self.client.privmsg(target, entry_msg)` (line 141). -/
  | privmsg (target : String) (msg : String)
deriving DecidableEq, Repr

/-- An effect that delivers a message on the protocol. -/
def Effect.isNotification : Effect → Bool
  | .broadcast _ => true
  | .privmsg _ _ => true
  | _ => false

/-- An effect that performs a network fetch. -/
def Effect.isFetch : Effect → Bool
  | .fetch _ => true
  | _ => false

/-- The message built on lines 136-138:
`"{0}: {1} ({2}) [{3}Z]".format(title, entry title, entry url, isoformat)`. -/
def entryMsg (ftitle : String) (etitle : String) (eurl : String)
    (time : DateTime) : String :=
  ftitle ++ ": " ++ etitle ++ " (" ++ eurl ++ ") [" ++ time.isoformat ++ "Z]"

/-- `LRRFeedParser.announce(feed, target=target)` (lines 126-143), returning
the effects it emits.  It re-reads the cached `latest` entry from the
updater map and never fetches. -/
def announce (feed : String) (target : Option String) (st : Updater) :
    List Effect :=
  match dictGet st feed, dictGet RSS_FEEDS feed with
  | some rec, some info =>
    match rec.latest with
    | none => []
    | some entry =>
      let entry_msg := entryMsg info.title entry.title entry.url entry.time
      match target with
      | some t => [Effect.privmsg t entry_msg]
      | none => [Effect.broadcast entry_msg]
  | _, _ => [Effect.warnUnknown feed]

/-- `LRRFeedParser.update(feed, announce=announceFlag)` (lines 88-124) as an
atomic transition of the updater map.  `fetchResult` is the value returned
by `await self.get_latest(feed_url)`; the `Effect.fetch` marker records
that the fetch was attempted.  Returns the new map and the effects. -/
def update (feed : String) (announceFlag : Bool) (fetchResult : Option Entry)
    (now : ℚ) (st : Updater) : Updater × List Effect :=
  match dictGet st feed, dictGet RSS_FEEDS feed with
  | some rec, some info =>
    -- line 106: self.updater[feed]["last"] = self.loop.time()
    let rec1 : FeedRecord := { rec with last := now }
    match fetchResult with
    | none =>
      -- lines 108-111: log an error and return early
      (dictSet st feed rec1, [Effect.fetch info.url, Effect.logError feed])
    | some newEntry =>
      -- lines 113-115: old_entry = ...["latest"]; ...["latest"] = new_entry
      let rec2 : FeedRecord := { rec1 with latest := some newEntry }
      let st2 := dictSet st feed rec2
      match rec.latest with
      | none => (st2, [Effect.fetch info.url, Effect.logFirst feed])
      | some oldEntry =>
        if oldEntry.url ≠ newEntry.url then
          if announceFlag then
            (st2, [Effect.fetch info.url, Effect.logNew feed] ++
              announce feed none st2)
          else
            (st2, [Effect.fetch info.url, Effect.logNew feed])
        else
          (st2, [Effect.fetch info.url])
  | _, _ =>
    -- lines 94-97: unknown feed, warn and return
    (st, [Effect.warnUnknown feed])

/-- One iteration of the loop body of `auto_update` (lines 74-83): sleep
`0.1 + (nxt - now)` when woken before `last + delay` is due, otherwise run
`update`. -/
inductive LoopAction
  | sleep (naptime : ℚ)
  | runUpdate
deriving DecidableEq, Repr

/-- The decision taken by one iteration of `auto_update`, from the feed's
`last` refresh time, the poll `delay` and the current monotonic time. -/
def auto_update_step (last : ℚ) (delay : ℚ) (now : ℚ) : LoopAction :=
  let nxt := last + delay
  if nxt > now then LoopAction.sleep (1/10 + (nxt - now)) else LoopAction.runUpdate

/-- Observable effects of `start` (lines 44-55). -/
inductive StartEffect
  /-- `self.loop.create_task(self.auto_update(feed))` (lines 48-49). -/
  | spawnTask (feed : String)
  /-- `logger.warning("... is already running.")` (lines 54-55). -/
  | warnRunning (feed : String)
deriving DecidableEq, Repr

/-- `LRRFeedParser.start()` (lines 44-55) acting on the class-level shared
`updater` map: for each catalog feed not yet tracked, insert a fresh record
(`last = 0.0`, `latest = None`) and spawn its polling task; warn otherwise. -/
def start (st : Updater) : Updater × List StartEffect :=
  RSS_FEEDS.foldl
    (fun acc p =>
      if (dictGet acc.1 p.1).isSome then
        (acc.1, acc.2 ++ [StartEffect.warnRunning p.1])
      else
        (dictInsert acc.1 p.1 ⟨0, none⟩, acc.2 ++ [StartEffect.spawnTask p.1]))
    (st, [])

/-- Where a polling task's coroutine is currently suspended. -/
inductive TaskPhase
  /-- Suspended in `asyncio.sleep` at line 81 (lock not held). -/
  | sleeping
  /-- Suspended inside the network fetch of `get_latest`, holding the
  feed's lock (lines 99-103). -/
  | fetching
  /-- The loop has exited (the task observed `CancelledError`). -/
  | exited
deriving DecidableEq, Repr

/-- The `"task"` field of an updater record: the coroutine's suspension
point plus whether `cancel()` has been requested on it. -/
structure TaskState where
  phase : TaskPhase
  cancelRequested : Bool
deriving DecidableEq, Repr

/-- `asyncio.Task.cancel()`: requests cancellation.  The `CancelledError`
is delivered only when the event loop next resumes the task, so the
suspension point is unchanged by the call itself. -/
def cancelTask (t : TaskState) : TaskState :=
  { t with cancelRequested := true }

/-- Log effects of `stop` (lines 57-68). -/
inductive StopEffect
  /-- `logger.warning("... is not running.")` (lines 65-66). -/
  | warnNotRunning (feed : String)
  /-- `logger.info("Waiting for automatic update to finish.")` (line 68). -/
  | infoWaiting
deriving DecidableEq, Repr

/-- `LRRFeedParser.stop()` (lines 57-68) on the task projection of the
updater map.  For each catalog feed currently tracked it calls
`task.cancel()` and `del self.updater[feed]`; otherwise it warns.  It then
logs the waiting message and returns: it is a plain synchronous method with
no `await`, so no task runs (and none can observe its cancellation) before
it returns.  Returns the remaining map, the cancelled task objects exactly
as they are when `stop` returns, and the log effects. -/
def stop (st : List (String × TaskState)) :
    List (String × TaskState) × List TaskState × List StopEffect :=
  let folded := RSS_FEEDS.foldl
    (fun (acc : List (String × TaskState) × List TaskState × List StopEffect) p =>
      match dictGet acc.1 p.1 with
      | some t => (dictDel acc.1 p.1, acc.2.1 ++ [cancelTask t], acc.2.2)
      | none => (acc.1, acc.2.1, acc.2.2 ++ [StopEffect.warnNotRunning p.1]))
    (st, [], [])
  (folded.1, folded.2.1, folded.2.2 ++ [StopEffect.infoWaiting])

/-- `sub` occurs as a contiguous substring of `s`. -/
def strContains (s : String) (sub : String) : Prop :=
  ∃ a b : List Char, s.data = a ++ sub.data ++ b

/-! ### Dictionary lemmas -/

theorem dictGet_dictSet_self {α : Type} (d : List (String × α)) (key : String)
    (v w : α) (h : dictGet d key = some w) :
    dictGet (dictSet d key v) key = some v := by
  induction d with
  | nil => simp [dictGet] at h
  | cons p t ih =>
    obtain ⟨k, x⟩ := p
    by_cases hk : k = key
    · simp [dictGet, dictSet, hk]
    · simp only [dictGet, if_neg hk] at h
      simpa [dictGet, dictSet, hk] using ih h

theorem dictGet_dictInsert_self {α : Type} (d : List (String × α)) (key : String)
    (v : α) (h : dictGet d key = none) :
    dictGet (dictInsert d key v) key = some v := by
  induction d with
  | nil => simp [dictGet, dictInsert]
  | cons p t ih =>
    obtain ⟨k, x⟩ := p
    by_cases hk : k = key
    · simp [dictGet, hk] at h
    · simp only [dictGet, if_neg hk] at h
      simpa [dictGet, dictInsert, hk] using ih h

theorem dictGet_dictInsert_ne {α : Type} (d : List (String × α)) (k1 key : String)
    (v : α) (h : k1 ≠ key) : dictGet (dictInsert d k1 v) key = dictGet d key := by
  induction d with
  | nil => simp [dictGet, dictInsert, h]
  | cons p t ih =>
    obtain ⟨k, x⟩ := p
    by_cases hk : k = key
    · simp [dictGet, dictInsert, hk]
    · simpa [dictGet, dictInsert, hk] using ih

/-! ### Message containment lemmas -/

theorem entryMsg_contains_ftitle (ft et eu : String) (t : DateTime) :
    strContains (entryMsg ft et eu t) ft := by
  refine ⟨[], (": " ++ et ++ " (" ++ eu ++ ") [" ++ t.isoformat ++ "Z]").data, ?_⟩
  simp [entryMsg, String.data_append, List.append_assoc]

theorem entryMsg_contains_etitle (ft et eu : String) (t : DateTime) :
    strContains (entryMsg ft et eu t) et := by
  refine ⟨(ft ++ ": ").data, (" (" ++ eu ++ ") [" ++ t.isoformat ++ "Z]").data, ?_⟩
  simp [entryMsg, String.data_append, List.append_assoc]

theorem entryMsg_contains_eurl (ft et eu : String) (t : DateTime) :
    strContains (entryMsg ft et eu t) eu := by
  refine ⟨(ft ++ ": " ++ et ++ " (").data, (") [" ++ t.isoformat ++ "Z]").data, ?_⟩
  simp [entryMsg, String.data_append, List.append_assoc]

theorem entryMsg_contains_time (ft et eu : String) (t : DateTime) :
    strContains (entryMsg ft et eu t) (t.isoformat ++ ("Z")) := by
  refine ⟨(ft ++ ": " ++ et ++ " (" ++ eu ++ ") [").data, ("]").data, ?_⟩
  simp [entryMsg, String.data_append, List.append_assoc]

/-! ### Claim theorems -/

/-- C1: for every tracked feed with no previously cached entry
(`latest = none`), a refresh whose fetch succeeds stores the fetched entry
as the feed's latest entry and emits no notification, for every entry
content and every value of the announce flag. -/
theorem first_refresh_stores_without_notifying
    (st : Updater) (feed : String) (rec : FeedRecord) (info : FeedInfo)
    (e : Entry) (flag : Bool) (now : ℚ)
    (h1 : dictGet st feed = some rec) (h2 : dictGet RSS_FEEDS feed = some info)
    (h3 : rec.latest = none) :
    (∃ rec2, dictGet (update feed flag (some e) now st).1 feed = some rec2 ∧
      rec2.latest = some e) ∧
    (update feed flag (some e) now st).2.filter Effect.isNotification = [] := by
  have hset := dictGet_dictSet_self st feed
    { last := now, latest := some e } rec h1
  simp only [update, h1, h2, h3]
  refine ⟨⟨{ last := now, latest := some e }, ?_, rfl⟩, ?_⟩
  · exact hset
  · simp [Effect.isNotification]

/-- Witness for C1 at a concrete tracked state. -/
theorem first_refresh_stores_without_notifying_witness :
    (∃ rec2, dictGet (update ("video") true
        (some ⟨"u1", "Ep1", ⟨2015, 1, 1, 0, 0, 0⟩⟩) 5
        [(("video"), ⟨0, none⟩)]).1 ("video") = some rec2 ∧
      rec2.latest = some ⟨"u1", "Ep1", ⟨2015, 1, 1, 0, 0, 0⟩⟩) ∧
    (update ("video") true (some ⟨"u1", "Ep1", ⟨2015, 1, 1, 0, 0, 0⟩⟩) 5
        [(("video"), ⟨0, none⟩)]).2.filter Effect.isNotification = [] :=
  first_refresh_stores_without_notifying
    [(("video"), ⟨0, none⟩)] ("video") ⟨0, none⟩
    ⟨"LRR Video Feed", "http://feeds.feedburner.com/Loadingreadyrun"⟩
    ⟨"u1", "Ep1", ⟨2015, 1, 1, 0, 0, 0⟩⟩ true 5 (by decide) (by decide) rfl

/-- C2: for every tracked feed with a cached entry, a refresh whose fetched
entry has a different url and whose announce flag is true emits exactly one
notification, a broadcast of the formatted message, and that message
contains the feed's display title, the new entry's title, its url, and its
published timestamp in ISO-8601 form suffixed with Z. -/
theorem new_url_notifies_exactly_once
    (st : Updater) (feed : String) (rec : FeedRecord) (info : FeedInfo)
    (old e : Entry) (now : ℚ)
    (h1 : dictGet st feed = some rec) (h2 : dictGet RSS_FEEDS feed = some info)
    (h3 : rec.latest = some old) (h4 : old.url ≠ e.url) :
    (update feed true (some e) now st).2.filter Effect.isNotification =
      [Effect.broadcast (entryMsg info.title e.title e.url e.time)] ∧
    strContains (entryMsg info.title e.title e.url e.time) info.title ∧
    strContains (entryMsg info.title e.title e.url e.time) e.title ∧
    strContains (entryMsg info.title e.title e.url e.time) e.url ∧
    strContains (entryMsg info.title e.title e.url e.time)
      (e.time.isoformat ++ ("Z")) := by
  have hset := dictGet_dictSet_self st feed
    { last := now, latest := some e } rec h1
  refine ⟨?_, entryMsg_contains_ftitle _ _ _ _, entryMsg_contains_etitle _ _ _ _,
    entryMsg_contains_eurl _ _ _ _, entryMsg_contains_time _ _ _ _⟩
  simp only [update, h1, h2, h3, if_pos h4, announce, hset]
  simp [Effect.isNotification]

/-- Witness for C2 at a concrete tracked state with a cached entry. -/
theorem new_url_notifies_exactly_once_witness :
    (update ("video") true (some ⟨"u2", "Ep2", ⟨2015, 2, 3, 4, 5, 6⟩⟩) 7
        [(("video"), ⟨1, some ⟨"u1", "Ep1", ⟨2015, 1, 1, 0, 0, 0⟩⟩⟩)]).2.filter
      Effect.isNotification =
      [Effect.broadcast (entryMsg ("LRR Video Feed") ("Ep2") ("u2")
        ⟨2015, 2, 3, 4, 5, 6⟩)] ∧
    strContains (entryMsg ("LRR Video Feed") ("Ep2") ("u2") ⟨2015, 2, 3, 4, 5, 6⟩)
      ("LRR Video Feed") ∧
    strContains (entryMsg ("LRR Video Feed") ("Ep2") ("u2") ⟨2015, 2, 3, 4, 5, 6⟩)
      ("Ep2") ∧
    strContains (entryMsg ("LRR Video Feed") ("Ep2") ("u2") ⟨2015, 2, 3, 4, 5, 6⟩)
      ("u2") ∧
    strContains (entryMsg ("LRR Video Feed") ("Ep2") ("u2") ⟨2015, 2, 3, 4, 5, 6⟩)
      ((DateTime.isoformat ⟨2015, 2, 3, 4, 5, 6⟩) ++ ("Z")) :=
  new_url_notifies_exactly_once
    [(("video"), ⟨1, some ⟨"u1", "Ep1", ⟨2015, 1, 1, 0, 0, 0⟩⟩⟩)] ("video")
    ⟨1, some ⟨"u1", "Ep1", ⟨2015, 1, 1, 0, 0, 0⟩⟩⟩
    ⟨"LRR Video Feed", "http://feeds.feedburner.com/Loadingreadyrun"⟩
    ⟨"u1", "Ep1", ⟨2015, 1, 1, 0, 0, 0⟩⟩ ⟨"u2", "Ep2", ⟨2015, 2, 3, 4, 5, 6⟩⟩ 7
    (by decide) (by decide) rfl (by decide)

/-- C3: for every tracked feed with a cached entry, a refresh whose fetched
entry has the same url as the cached one emits no notification, for every
announce flag (the only effect besides the fetch is nothing: no log of a
new entry, no message). -/
theorem same_url_no_notification
    (st : Updater) (feed : String) (rec : FeedRecord) (info : FeedInfo)
    (old e : Entry) (flag : Bool) (now : ℚ)
    (h1 : dictGet st feed = some rec) (h2 : dictGet RSS_FEEDS feed = some info)
    (h3 : rec.latest = some old) (h4 : old.url = e.url) :
    (update feed flag (some e) now st).2 = [Effect.fetch info.url] ∧
    (update feed flag (some e) now st).2.filter Effect.isNotification = [] := by
  simp only [update, h1, h2, h3]
  rw [if_neg (by simpa using h4)]
  exact ⟨rfl, by simp [Effect.isNotification]⟩

/-- Witness for C3 with a re-fetched entry whose title and timestamp differ
but whose url is unchanged. -/
theorem same_url_no_notification_witness :
    (update ("video") true (some ⟨"u1", "Ep1 updated", ⟨2015, 1, 1, 0, 5, 0⟩⟩) 7
        [(("video"), ⟨1, some ⟨"u1", "Ep1", ⟨2015, 1, 1, 0, 0, 0⟩⟩⟩)]).2 =
      [Effect.fetch ("http://feeds.feedburner.com/Loadingreadyrun")] ∧
    (update ("video") true (some ⟨"u1", "Ep1 updated", ⟨2015, 1, 1, 0, 5, 0⟩⟩) 7
        [(("video"), ⟨1, some ⟨"u1", "Ep1", ⟨2015, 1, 1, 0, 0, 0⟩⟩⟩)]).2.filter
      Effect.isNotification = [] :=
  same_url_no_notification
    [(("video"), ⟨1, some ⟨"u1", "Ep1", ⟨2015, 1, 1, 0, 0, 0⟩⟩⟩)] ("video")
    ⟨1, some ⟨"u1", "Ep1", ⟨2015, 1, 1, 0, 0, 0⟩⟩⟩
    ⟨"LRR Video Feed", "http://feeds.feedburner.com/Loadingreadyrun"⟩
    ⟨"u1", "Ep1", ⟨2015, 1, 1, 0, 0, 0⟩⟩
    ⟨"u1", "Ep1 updated", ⟨2015, 1, 1, 0, 5, 0⟩⟩ true 7
    (by decide) (by decide) rfl rfl

/-- C5: for every tracked feed, a refresh whose fetch fails (`get_latest`
returned `None`) leaves the cached latest entry unchanged and emits no
notification; the cycle's only effects are the fetch and the error log. -/
theorem fetch_failure_preserves_latest
    (st : Updater) (feed : String) (rec : FeedRecord) (info : FeedInfo)
    (flag : Bool) (now : ℚ)
    (h1 : dictGet st feed = some rec) (h2 : dictGet RSS_FEEDS feed = some info) :
    (∃ rec2, dictGet (update feed flag none now st).1 feed = some rec2 ∧
      rec2.latest = rec.latest) ∧
    (update feed flag none now st).2 =
      [Effect.fetch info.url, Effect.logError feed] ∧
    (update feed flag none now st).2.filter Effect.isNotification = [] := by
  have hset := dictGet_dictSet_self st feed
    { last := now, latest := rec.latest } rec h1
  simp only [update, h1, h2]
  refine ⟨⟨{ last := now, latest := rec.latest }, hset, rfl⟩, ?_, ?_⟩ <;>
    simp [Effect.isNotification]

/-- Witness for C5 at a concrete tracked state. -/
theorem fetch_failure_preserves_latest_witness :
    (∃ rec2, dictGet (update ("podcast") true none 9
        [(("podcast"), ⟨2, some ⟨"p1", "Cast1", ⟨2015, 3, 1, 0, 0, 0⟩⟩⟩)]).1
        ("podcast") = some rec2 ∧
      rec2.latest = some ⟨"p1", "Cast1", ⟨2015, 3, 1, 0, 0, 0⟩⟩) ∧
    (update ("podcast") true none 9
        [(("podcast"), ⟨2, some ⟨"p1", "Cast1", ⟨2015, 3, 1, 0, 0, 0⟩⟩⟩)]).2 =
      [Effect.fetch ("http://loadingreadyrun.com/lrrcasts/feed/all"),
       Effect.logError ("podcast")] ∧
    (update ("podcast") true none 9
        [(("podcast"), ⟨2, some ⟨"p1", "Cast1", ⟨2015, 3, 1, 0, 0, 0⟩⟩⟩)]).2.filter
      Effect.isNotification = [] :=
  fetch_failure_preserves_latest
    [(("podcast"), ⟨2, some ⟨"p1", "Cast1", ⟨2015, 3, 1, 0, 0, 0⟩⟩⟩)] ("podcast")
    ⟨2, some ⟨"p1", "Cast1", ⟨2015, 3, 1, 0, 0, 0⟩⟩⟩
    ⟨"LRRcast Feed", "http://loadingreadyrun.com/lrrcasts/feed/all"⟩ true 9
    (by decide) (by decide)

/-- C8: for every feed id that is untracked or absent from the catalog,
`update` returns with the state unchanged and a single warning effect: no
fetch is attempted, no record is created or modified, no notification is
emitted (and, being a total function, nothing is raised). -/
theorem unknown_feed_update_noop
    (st : Updater) (feed : String) (flag : Bool) (fetchResult : Option Entry)
    (now : ℚ)
    (h : dictGet st feed = none ∨ dictGet RSS_FEEDS feed = none) :
    update feed flag fetchResult now st = (st, [Effect.warnUnknown feed]) := by
  rcases h with h | h
  · cases hg : dictGet RSS_FEEDS feed <;> simp only [update, h, hg]
  · cases hg : dictGet st feed <;> simp only [update, h, hg]

/-- Witness for C8 on a feed id absent from the catalog. -/
theorem unknown_feed_update_noop_witness :
    update ("comic") true none 3 [(("video"), ⟨0, none⟩)] =
      ([(("video"), ⟨0, none⟩)], [Effect.warnUnknown ("comic")]) :=
  unknown_feed_update_noop [(("video"), ⟨0, none⟩)] ("comic") true none 3
    (Or.inl (by decide))

/-- C4 counterexample: a successful refresh whose fetched entry has the
same url as the cached one does NOT leave the cached record unchanged:
line 115 of the source assigns `updater[feed]["latest"] = new_entry`
unconditionally, so the cached latest entry is replaced by the re-fetched
record (here with a new title and timestamp). -/
theorem same_url_refresh_replaces_record_counterexample :
    (dictGet (update ("video") true
        (some ⟨"v1", "Ep1 (updated desc)", ⟨2015, 1, 1, 0, 5, 0⟩⟩) 7
        [(("video"), ⟨1, some ⟨"v1", "Ep1", ⟨2015, 1, 1, 0, 0, 0⟩⟩⟩)]).1
      ("video")).map FeedRecord.latest ≠
    (dictGet [(("video"), ⟨1, some ⟨"v1", "Ep1", ⟨2015, 1, 1, 0, 0, 0⟩⟩⟩)]
      ("video")).map FeedRecord.latest := by
  decide

/-- C4 (amended): for every tracked feed with a cached entry, a successful
refresh whose fetched entry has the same url emits no notification, but it
does change the feed's state: the cached record is replaced by the newly
fetched entry (whose title and timestamp may differ) and the last-refresh
time is set to the cycle's time. -/
theorem same_url_refresh_replaces_record
    (st : Updater) (feed : String) (rec : FeedRecord) (info : FeedInfo)
    (old e : Entry) (flag : Bool) (now : ℚ)
    (h1 : dictGet st feed = some rec) (h2 : dictGet RSS_FEEDS feed = some info)
    (h3 : rec.latest = some old) (h4 : old.url = e.url) :
    (∃ rec2, dictGet (update feed flag (some e) now st).1 feed = some rec2 ∧
      rec2.latest = some e ∧ rec2.last = now) ∧
    (update feed flag (some e) now st).2.filter Effect.isNotification = [] := by
  have hset := dictGet_dictSet_self st feed
    { last := now, latest := some e } rec h1
  simp only [update, h1, h2, h3]
  rw [if_neg (by simpa using h4)]
  exact ⟨⟨{ last := now, latest := some e }, hset, rfl, rfl⟩,
    by simp [Effect.isNotification]⟩

/-- Witness for the amended C4 at the spec's own example. -/
theorem same_url_refresh_replaces_record_witness :
    (∃ rec2, dictGet (update ("video") true
        (some ⟨"v1", "Ep1 (updated desc)", ⟨2015, 1, 1, 0, 5, 0⟩⟩) 7
        [(("video"), ⟨1, some ⟨"v1", "Ep1", ⟨2015, 1, 1, 0, 0, 0⟩⟩⟩)]).1
        ("video") = some rec2 ∧
      rec2.latest = some ⟨"v1", "Ep1 (updated desc)", ⟨2015, 1, 1, 0, 5, 0⟩⟩ ∧
      rec2.last = 7) ∧
    (update ("video") true
        (some ⟨"v1", "Ep1 (updated desc)", ⟨2015, 1, 1, 0, 5, 0⟩⟩) 7
        [(("video"), ⟨1, some ⟨"v1", "Ep1", ⟨2015, 1, 1, 0, 0, 0⟩⟩⟩)]).2.filter
      Effect.isNotification = [] :=
  same_url_refresh_replaces_record
    [(("video"), ⟨1, some ⟨"v1", "Ep1", ⟨2015, 1, 1, 0, 0, 0⟩⟩⟩)] ("video")
    ⟨1, some ⟨"v1", "Ep1", ⟨2015, 1, 1, 0, 0, 0⟩⟩⟩
    ⟨"LRR Video Feed", "http://feeds.feedburner.com/Loadingreadyrun"⟩
    ⟨"v1", "Ep1", ⟨2015, 1, 1, 0, 0, 0⟩⟩
    ⟨"v1", "Ep1 (updated desc)", ⟨2015, 1, 1, 0, 5, 0⟩⟩ true 7
    (by decide) (by decide) rfl rfl

/-- C6: every refresh cycle for a tracked feed, whether the fetch succeeds
or fails, stamps the feed's last-refresh time with the cycle's monotonic
time; one iteration of the auto_update loop runs an update exactly when the
current time has reached last + delay, and otherwise sleeps
(due - now) + 1/10, a positive duration; hence after a cycle at time t the
next automatic refresh happens no sooner than t + delay. -/
theorem refresh_timestamp_and_poll_cadence
    (st : Updater) (feed : String) (rec : FeedRecord) (info : FeedInfo)
    (fetchResult : Option Entry) (flag : Bool) (t delay now2 : ℚ)
    (h1 : dictGet st feed = some rec) (h2 : dictGet RSS_FEEDS feed = some info) :
    (∃ rec2, dictGet (update feed flag fetchResult t st).1 feed = some rec2 ∧
      rec2.last = t) ∧
    (auto_update_step t delay now2 = LoopAction.runUpdate ↔ t + delay ≤ now2) ∧
    (now2 < t + delay →
      auto_update_step t delay now2 =
        LoopAction.sleep (1/10 + (t + delay - now2)) ∧
      0 < 1/10 + (t + delay - now2)) := by
  refine ⟨?_, ?_, ?_⟩
  · cases fetchResult with
    | none =>
      refine ⟨{ last := t, latest := rec.latest }, ?_, rfl⟩
      simp only [update, h1, h2]
      exact dictGet_dictSet_self st feed _ rec h1
    | some e =>
      refine ⟨{ last := t, latest := some e }, ?_, rfl⟩
      have hset := dictGet_dictSet_self st feed
        { last := t, latest := some e } rec h1
      cases hl : rec.latest with
      | none =>
        simp only [update, h1, h2, hl]
        exact hset
      | some old =>
        simp only [update, h1, h2, hl]
        split_ifs <;> exact hset
  · constructor
    · intro h
      by_contra hlt
      push_neg at hlt
      simp [auto_update_step, hlt] at h
    · intro h
      have hng : ¬ (t + delay > now2) := not_lt.mpr h
      simp [auto_update_step, hng]
  · intro h
    refine ⟨by simp [auto_update_step, h], by linarith⟩

/-- Witness for C6: a failed cycle at time 5 with delay 300, loop woken at
time 100. -/
theorem refresh_timestamp_and_poll_cadence_witness :
    (∃ rec2, dictGet (update ("video") true none 5
        [(("video"), ⟨0, none⟩)]).1 ("video") = some rec2 ∧
      rec2.last = 5) ∧
    (auto_update_step 5 300 100 = LoopAction.runUpdate ↔ 5 + 300 ≤ (100 : ℚ)) ∧
    ((100 : ℚ) < 5 + 300 →
      auto_update_step 5 300 100 =
        LoopAction.sleep (1/10 + (5 + 300 - 100)) ∧
      (0 : ℚ) < 1/10 + (5 + 300 - 100)) :=
  refresh_timestamp_and_poll_cadence [(("video"), ⟨0, none⟩)] ("video")
    ⟨0, none⟩ ⟨"LRR Video Feed", "http://feeds.feedburner.com/Loadingreadyrun"⟩
    none true 5 300 100 (by decide) (by decide)

/-- C9: announce for a tracked feed sends nothing when no entry has been
cached; with a cached entry it re-emits exactly that entry's message, as a
direct message when a target is given and as a broadcast otherwise; and it
performs no fetch in any case. -/
theorem announce_reemits_cached_entry
    (st : Updater) (feed : String) (rec : FeedRecord) (info : FeedInfo)
    (h1 : dictGet st feed = some rec) (h2 : dictGet RSS_FEEDS feed = some info) :
    (rec.latest = none → ∀ target, announce feed target st = []) ∧
    (∀ e, rec.latest = some e →
      (∀ tgt, announce feed (some tgt) st =
        [Effect.privmsg tgt (entryMsg info.title e.title e.url e.time)]) ∧
      announce feed none st =
        [Effect.broadcast (entryMsg info.title e.title e.url e.time)]) ∧
    (∀ target, (announce feed target st).filter Effect.isFetch = []) := by
  refine ⟨?_, ?_, ?_⟩
  · intro h target
    simp [announce, h1, h2, h]
  · intro e he
    exact ⟨fun tgt => by simp [announce, h1, h2, he],
      by simp [announce, h1, h2, he]⟩
  · intro target
    cases hl : rec.latest with
    | none => simp [announce, h1, h2, hl]
    | some e => cases target <;> simp [announce, h1, h2, hl, Effect.isFetch]

/-- Witness for C9 at a concrete state with a cached entry. -/
theorem announce_reemits_cached_entry_witness :
    (((⟨3, some ⟨"p1", "Cast1", ⟨2015, 3, 1, 0, 0, 0⟩⟩⟩ : FeedRecord)).latest =
        none →
      ∀ target, announce ("podcast") target
        [(("podcast"), ⟨3, some ⟨"p1", "Cast1", ⟨2015, 3, 1, 0, 0, 0⟩⟩⟩)] = []) ∧
    (∀ e, ((⟨3, some ⟨"p1", "Cast1", ⟨2015, 3, 1, 0, 0, 0⟩⟩⟩ : FeedRecord)).latest
        = some e →
      (∀ tgt, announce ("podcast") (some tgt)
          [(("podcast"), ⟨3, some ⟨"p1", "Cast1", ⟨2015, 3, 1, 0, 0, 0⟩⟩⟩)] =
        [Effect.privmsg tgt (entryMsg ("LRRcast Feed") e.title e.url e.time)]) ∧
      announce ("podcast") none
          [(("podcast"), ⟨3, some ⟨"p1", "Cast1", ⟨2015, 3, 1, 0, 0, 0⟩⟩⟩)] =
        [Effect.broadcast (entryMsg ("LRRcast Feed") e.title e.url e.time)]) ∧
    (∀ target, (announce ("podcast") target
        [(("podcast"), ⟨3, some ⟨"p1", "Cast1", ⟨2015, 3, 1, 0, 0, 0⟩⟩⟩)]).filter
      Effect.isFetch = []) :=
  announce_reemits_cached_entry
    [(("podcast"), ⟨3, some ⟨"p1", "Cast1", ⟨2015, 3, 1, 0, 0, 0⟩⟩⟩)] ("podcast")
    ⟨3, some ⟨"p1", "Cast1", ⟨2015, 3, 1, 0, 0, 0⟩⟩⟩
    ⟨"LRRcast Feed", "http://loadingreadyrun.com/lrrcasts/feed/all"⟩
    (by decide) (by decide)

/-- After `start`, both catalog feeds are tracked, whatever the prior state
of the shared updater map. -/
theorem start_tracks_feeds (st0 : Updater) :
    (dictGet (start st0).1 ("video")).isSome ∧
    (dictGet (start st0).1 ("podcast")).isSome := by
  have hne1 : ("podcast") ≠ ("video") := by decide
  have hne2 : ("video") ≠ ("podcast") := by decide
  simp only [start, RSS_FEEDS, List.foldl]
  by_cases hv : (dictGet st0 ("video")).isSome
  · rw [if_pos hv]
    by_cases hp : (dictGet st0 ("podcast")).isSome
    · rw [if_pos hp]
      exact ⟨hv, hp⟩
    · rw [if_neg hp]
      refine ⟨?_, ?_⟩
      · rw [dictGet_dictInsert_ne st0 ("podcast") ("video") _ hne1]
        exact hv
      · rw [dictGet_dictInsert_self st0 ("podcast") _
          (Option.not_isSome_iff_eq_none.mp hp)]
        rfl
  · rw [if_neg hv]
    have hv2 : dictGet (dictInsert st0 ("video") ⟨0, none⟩) ("video") =
        some ⟨0, none⟩ :=
      dictGet_dictInsert_self st0 ("video") _
        (Option.not_isSome_iff_eq_none.mp hv)
    have hpeq : dictGet (dictInsert st0 ("video") ⟨0, none⟩) ("podcast") =
        dictGet st0 ("podcast") :=
      dictGet_dictInsert_ne st0 ("video") ("podcast") _ hne2
    by_cases hp : (dictGet st0 ("podcast")).isSome
    · rw [if_pos (by rw [hpeq]; exact hp)]
      exact ⟨by rw [hv2]; rfl, by rw [hpeq]; exact hp⟩
    · rw [if_neg (by rw [hpeq]; exact hp)]
      refine ⟨?_, ?_⟩
      · rw [dictGet_dictInsert_ne _ ("podcast") ("video") _ hne1, hv2]
        rfl
      · rw [dictGet_dictInsert_self _ ("podcast") _
          (by rw [hpeq]; exact Option.not_isSome_iff_eq_none.mp hp)]
        rfl

/-- C10: the updater map is the class-level attribute shared by every
`LRRFeedParser` instance, so after one `start` has populated it, a second
`start` (from any instance) creates no new feed state and spawns no task:
it returns the map unchanged with one already-running warning per catalog
feed. -/
theorem second_start_is_noop (st0 : Updater) :
    start (start st0).1 =
      ((start st0).1,
       [StartEffect.warnRunning ("video"), StartEffect.warnRunning ("podcast")]) := by
  obtain ⟨hv, hp⟩ := start_tracks_feeds st0
  set st1 := (start st0).1 with hdef
  simp only [start, RSS_FEEDS, List.foldl]
  rw [if_pos hv, if_pos hp]
  simp

/-- Witness for C10 starting from the empty shared map. -/
theorem second_start_is_noop_witness :
    start (start ([] : List (String × FeedRecord))).1 =
      ((start ([] : List (String × FeedRecord))).1,
       [StartEffect.warnRunning ("video"), StartEffect.warnRunning ("podcast")]) :=
  second_start_is_noop ([] : List (String × FeedRecord))

/-- C7: `stop` does not wait for cancelled tasks.  At a state whose video
polling task is suspended inside the network fetch (holding the feed's
lock), `stop` requests cancellation, removes the feed from the tracked map,
warns about the untracked podcast feed, logs the waiting message — and
returns while the task is still in the fetching phase, the cancellation not
yet observed.  The claim that `stop` blocks until every cancelled task has
exited is false of the code: `stop` is a synchronous method that never
awaits the tasks it cancels. -/
theorem stop_returns_before_task_exits :
    (stop [(("video"), ⟨TaskPhase.fetching, false⟩)]).2.1 =
      [⟨TaskPhase.fetching, true⟩] ∧
    (stop [(("video"), ⟨TaskPhase.fetching, false⟩)]).1 = [] ∧
    (stop [(("video"), ⟨TaskPhase.fetching, false⟩)]).2.2 =
      [StopEffect.warnNotRunning ("podcast"), StopEffect.infoWaiting] := by
  decide

end LRRFeed
